import Mathlib

/-!
Verification of the token-authentication core of a small Express/TypeScript
authentication backend.  The Token Service (src/lib/jwt.ts), the
Authorization Gate (src/lib/auth-middleware.ts) and the signin and signup
routes (src/routes/auth.ts, self-hosted password variant) are embedded
shallowly.  The jsonwebtoken library the Token Service delegates to is not
part of the repository; its signing and verification are modelled from the
specification of the token format: a signed, self-contained credential
encoding the payload plus issued-at plus a 24-hour expiry, all encoded so
that tampering with any part invalidates the signature.  Times are natural
numbers counting seconds.
-/

/-- TokenPayload from src/lib/jwt.ts: the identity claims embedded in a token. -/
structure TokenPayload where
  id : String
  email : String
  name : String
deriving DecidableEq, Repr

/-- Modelled from the spec: the decimal digit character of a one-digit number. -/
def digitChar (n : Nat) : Char :=
  if n = 0 then '0' else if n = 1 then '1' else if n = 2 then '2'
  else if n = 3 then '3' else if n = 4 then '4' else if n = 5 then '5'
  else if n = 6 then '6' else if n = 7 then '7' else if n = 8 then '8' else '9'

/-- Modelled from the spec: the numeric value of a decimal digit character. -/
def digitVal (c : Char) : Option Nat :=
  if c = '0' then some 0 else if c = '1' then some 1 else if c = '2' then some 2
  else if c = '3' then some 3 else if c = '4' then some 4 else if c = '5' then some 5
  else if c = '6' then some 6 else if c = '7' then some 7 else if c = '8' then some 8
  else if c = '9' then some 9 else none

/-- Fuel-indexed decimal printer (structural recursion so terms reduce in the kernel). -/
def natCharsAux : Nat → Nat → List Char
  | 0, _ => []
  | fuel + 1, n =>
    if n < 10 then [digitChar n]
    else natCharsAux fuel (n / 10) ++ [digitChar (n % 10)]

/-- Modelled from the spec: the decimal representation of a natural number,
used for the issued-at and expiry claims inside the serialized payload. -/
def natChars (n : Nat) : List Char := natCharsAux (n + 1) n

/-- Accumulator-style decimal reader. -/
def parseNatAux (acc : Nat) : List Char → Option Nat
  | [] => some acc
  | c :: cs =>
    match digitVal c with
    | some d => parseNatAux (10 * acc + d) cs
    | none => none

/-- Modelled from the spec: read back a nonempty decimal numeral. -/
def parseNat : List Char → Option Nat
  | [] => none
  | l => parseNatAux 0 l

/-- Modelled from the spec: escape one character so that a delimiter never
occurs inside a serialized section (sections can then be joined unambiguously,
and tampering with any part of the encoding invalidates the token). -/
def escChar (d c : Char) : List Char :=
  if c = d then ['\\', 'd'] else if c = '\\' then ['\\', 'b'] else [c]

/-- Modelled from the spec: delimiter-free encoding of a character list. -/
def esc (d : Char) : List Char → List Char
  | [] => []
  | c :: cs => escChar d c ++ esc d cs

/-- Modelled from the spec: decoder of the delimiter-free encoding. -/
def unesc (d : Char) : List Char → Option (List Char)
  | [] => some []
  | c :: cs =>
    if c = '\\' then
      match cs with
      | [] => none
      | e :: rest =>
        if e = 'd' then (unesc d rest).map (fun l => d :: l)
        else if e = 'b' then (unesc d rest).map (fun l => '\\' :: l)
        else none
    else if c = d then none
    else (unesc d cs).map (fun l => c :: l)

/-- Split a character list at every occurrence of a delimiter (the behavior
of JavaScript's String.split on a single-character separator). -/
def splitOnC (d : Char) : List Char → List (List Char)
  | [] => [[]]
  | c :: cs =>
    if c = d then [] :: splitOnC d cs
    else
      match splitOnC d cs with
      | [] => [[c]]
      | p :: ps => (c :: p) :: ps

/-- Join character lists with a delimiter between consecutive parts. -/
def joinOn (d : Char) : List (List Char) → List Char
  | [] => []
  | [x] => x
  | x :: xs => x ++ d :: joinOn d xs

/-- Occurrences of a character in a list. -/
def countD (d : Char) : List Char → Nat
  | [] => 0
  | c :: cs => (if c = d then 1 else 0) + countD d cs

/-- Modelled from the spec: the cryptographic signature computed over the
serialized content using the process-wide secret key, idealized as a tag
that is injective in the message for a fixed key and distinguishes keys. -/
def mac (secret : String) (msg : List Char) : List Char :=
  secret.data ++ msg

/-- Claims carried inside a token: the payload plus issued-at and expiry. -/
structure Claims where
  id : String
  email : String
  name : String
  iat : Nat
  exp : Nat
deriving DecidableEq, Repr

/-- Modelled from the spec: serialization of the payload together with the
issued-at timestamp and the expiry. -/
def serializeClaims (c : Claims) : List Char :=
  esc ',' c.id.data ++ (',' :: (esc ',' c.email.data ++ (',' :: (esc ',' c.name.data
    ++ (',' :: (natChars c.iat ++ (',' :: natChars c.exp)))))))

/-- Modelled from the spec: parse the serialized claims back. -/
def parseClaims (l : List Char) : Option Claims :=
  match splitOnC ',' l with
  | [i, e, n, ia, ex] =>
    match unesc ',' i, unesc ',' e, unesc ',' n, parseNat ia, parseNat ex with
    | some i', some e', some n', some ia', some ex' =>
      some ⟨⟨i'⟩, ⟨e'⟩, ⟨n'⟩, ia', ex'⟩
    | _, _, _, _, _ => none
  | _ => none

/-- Modelled from the spec: the constant token header naming the signing scheme. -/
def headerEnc : List Char := esc '.' ("alg=HS256,typ=JWT").data

/-- Verification failures of the token layer. -/
inductive JwtError where
  | malformed
  | badSignature
  | expired
deriving DecidableEq, Repr

/-- Modelled from the spec: the encoded token string - header, serialized
payload with expiry, and signature, joined by dots, each section encoded
delimiter-free so tampering with any part invalidates the signature. -/
def signedToken (secret : String) (c : Claims) : List Char :=
  headerEnc ++ ('.' :: (esc '.' (serializeClaims c)
    ++ ('.' :: esc '.' (mac secret (headerEnc ++ ('.' :: esc '.' (serializeClaims c)))))))

/-- Modelled from the spec: jwt.sign - serializes the payload together with
an issued-at timestamp and an expiry of issued-at + 24 hours (86400 seconds)
and signs it with the process-wide secret. -/
def jwtSign (secret : String) (payload : TokenPayload) (now : Nat) : List Char :=
  signedToken secret ⟨payload.id, payload.email, payload.name, now, now + 86400⟩

/-- Modelled from the spec: jwt.verify - decodes the token, recomputes the
signature over the claimed content with the same secret, and accepts only if
the signature matches exactly and the current time is strictly before the
encoded expiry. -/
def jwtVerify (secret : String) (token : List Char) (now : Nat) : Except JwtError Claims :=
  match splitOnC '.' token with
  | [h, p, s] =>
    if h = headerEnc then
      if s = esc '.' (mac secret (h ++ ('.' :: p))) then
        match unesc '.' p with
        | some cs =>
          match parseClaims cs with
          | some c => if now < c.exp then Except.ok c else Except.error JwtError.expired
          | none => Except.error JwtError.malformed
        | none => Except.error JwtError.malformed
      else Except.error JwtError.badSignature
    else Except.error JwtError.badSignature
  | _ => Except.error JwtError.malformed

/-- JWT_SECRET from src/lib/jwt.ts: process.env.JWT_SECRET with the hardcoded
fallback taken when the variable is unset or empty (JavaScript falsiness). -/
def JWT_SECRET (env : Option String) : String :=
  match env with
  | some s => if s = "" then "your_jwt_secret_key" else s
  | none => "your_jwt_secret_key"

/-- generateToken from src/lib/jwt.ts. -/
def generateToken (env : Option String) (payload : TokenPayload) (now : Nat) : List Char :=
  jwtSign (JWT_SECRET env) payload now

/-- verifyToken from src/lib/jwt.ts: returns the decoded payload, or null on
any verification failure (the try/catch swallows every error). -/
def verifyToken (env : Option String) (token : List Char) (now : Nat) : Option TokenPayload :=
  match jwtVerify (JWT_SECRET env) token now with
  | Except.ok c => some ⟨c.id, c.email, c.name⟩
  | Except.error _ => none

/-- Incoming request as the Authorization Gate sees it. -/
structure AuthRequest where
  authorization : Option String

/-- Outcome of the Authorization Gate: a short-circuited rejection, or
passage to the handler with the decoded identity attached as req.user. -/
inductive MiddlewareResult where
  | reject (status : Nat) (error : String)
  | proceed (user : TokenPayload)
deriving DecidableEq, Repr

/-- Token extraction from src/lib/auth-middleware.ts:
req.headers.authorization?.split(' ')[1]. -/
def extractToken (req : AuthRequest) : Option (List Char) :=
  match req.authorization with
  | none => none
  | some h => (splitOnC ' ' h.data)[1]?

/-- authMiddleware from src/lib/auth-middleware.ts. -/
def authMiddleware (env : Option String) (now : Nat) (req : AuthRequest) : MiddlewareResult :=
  match extractToken req with
  | none => MiddlewareResult.reject 401 "No token provided"
  | some tok =>
    if tok = [] then MiddlewareResult.reject 401 "No token provided"
    else
      match verifyToken env tok now with
      | none => MiddlewareResult.reject 401 "Invalid token"
      | some payload => MiddlewareResult.proceed payload

/-- Row of the user-profiles table as the routes read and write it. -/
structure UserRecord where
  id : String
  email_id : String
  username : String
  password_hash : String
  subscription_tier : Nat
  created_at : String
deriving DecidableEq, Repr

/-- Identity fields returned to the client on success. -/
structure UserView where
  id : String
  email_id : String
  username : String
deriving DecidableEq, Repr

/-- HTTP response of the auth routes. -/
inductive ApiResponse where
  | err (status : Nat) (error : String)
  | ok (status : Nat) (message : String) (token : List Char) (user : UserView)
deriving DecidableEq, Repr

/-- Falsiness of an optional string request field, as JavaScript sees it. -/
def strFalsy : Option String → Bool
  | none => true
  | some s => s = ""

/-- Lookup of the user record keyed by email (the routes' single-row select). -/
def findUser (store : List UserRecord) (e : String) : Option UserRecord :=
  store.find? (fun u => u.email_id = e)

/-- signin route from src/routes/auth.ts (self-hosted password variant):
missing fields give 400; an unknown email and a wrong password both give 401
with the same body; success issues a token for the stored identity. -/
def signin (env : Option String) (now : Nat) (compare : String → String → Bool)
    (store : List UserRecord) (email_id password : Option String) : ApiResponse :=
  if strFalsy email_id || strFalsy password then
    ApiResponse.err 400 "Missing email or password"
  else
    match findUser store (email_id.getD "") with
    | none => ApiResponse.err 401 "Invalid email or password"
    | some u =>
      if compare (password.getD "") u.password_hash then
        ApiResponse.ok 200 "Sign in successful"
          (generateToken env ⟨u.id, u.email_id, u.username⟩ now)
          ⟨u.id, u.email_id, u.username⟩
      else ApiResponse.err 401 "Invalid email or password"

/-- signup route from src/routes/auth.ts (self-hosted password variant):
missing fields give 400, a duplicate email gives 409, otherwise the record
is inserted and a token issued; a failed insert gives 400 and stores nothing. -/
def signup (env : Option String) (now : Nat) (hash : String → String)
    (newId createdAt : String) (insertOk : Bool) (store : List UserRecord)
    (username email_id password : Option String) : ApiResponse × List UserRecord :=
  if strFalsy username || strFalsy email_id || strFalsy password then
    (ApiResponse.err 400 "Missing required fields", store)
  else
    match findUser store (email_id.getD "") with
    | some _ => (ApiResponse.err 409 "User already exists", store)
    | none =>
      if insertOk then
        (ApiResponse.ok 201 "User created successfully"
          (generateToken env ⟨newId, email_id.getD "", username.getD ""⟩ now)
          ⟨newId, email_id.getD "", username.getD ""⟩,
         ⟨newId, email_id.getD "", username.getD "", hash (password.getD ""), 0, createdAt⟩ :: store)
      else (ApiResponse.err 400 "Failed to store user data", store)

/-- Reading back the digit character of a one-digit number gives it back. -/
lemma digitVal_digitChar (n : Nat) (h : n < 10) : digitVal (digitChar n) = some n := by
  interval_cases n <;> rfl

/-- Digit characters are decimal digits. -/
lemma digitChar_mem (n : Nat) : digitChar n ∈ ['0', '1', '2', '3', '4', '5', '6', '7', '8', '9'] := by
  unfold digitChar
  repeat' split
  all_goals decide

/-- Characters of a printed numeral are decimal digits. -/
lemma mem_natCharsAux (fuel : Nat) : ∀ n c, c ∈ natCharsAux fuel n →
    c ∈ ['0', '1', '2', '3', '4', '5', '6', '7', '8', '9'] := by
  induction fuel with
  | zero => intro n c h; simp [natCharsAux] at h
  | succ fuel ih =>
    intro n c h
    unfold natCharsAux at h
    split at h
    · simp at h
      exact h ▸ digitChar_mem n
    · rcases List.mem_append.mp h with h1 | h1
      · exact ih (n / 10) c h1
      · simp at h1
        exact h1 ▸ digitChar_mem (n % 10)

/-- Printed numerals never contain the comma delimiter. -/
lemma comma_not_mem_natChars (n : Nat) : ',' ∉ natChars n := by
  intro h
  exact absurd (mem_natCharsAux (n + 1) n ',' h) (by decide)

/-- Printed numerals are nonempty. -/
lemma natChars_ne_nil (n : Nat) : natChars n ≠ [] := by
  unfold natChars natCharsAux
  split
  · simp
  · simp

/-- Reading a numeral distributes over appending. -/
lemma parseNatAux_append (acc : Nat) (xs ys : List Char) :
    parseNatAux acc (xs ++ ys) = (parseNatAux acc xs).bind (fun a => parseNatAux a ys) := by
  induction xs generalizing acc with
  | nil => rfl
  | cons c cs ih =>
    simp only [List.cons_append, parseNatAux]
    cases h : digitVal c with
    | none => rfl
    | some d => exact ih (10 * acc + d)

/-- Reading back a printed numeral with an accumulator. -/
lemma parseNatAux_natCharsAux (fuel : Nat) : ∀ n acc, n < fuel →
    parseNatAux acc (natCharsAux fuel n)
      = some (acc * 10 ^ (natCharsAux fuel n).length + n) := by
  induction fuel with
  | zero => intro n acc h; omega
  | succ fuel ih =>
    intro n acc h
    unfold natCharsAux
    split
    · rename_i h10
      simp only [parseNatAux, digitVal_digitChar n h10, List.length_cons, List.length_nil]
      norm_num
      omega
    · rename_i h10
      push_neg at h10
      have hdiv : n / 10 < fuel := by
        have h1 : n / 10 < n := Nat.div_lt_self (by omega) (by omega)
        omega
      rw [parseNatAux_append, ih (n / 10) acc hdiv]
      simp only [Option.some_bind, parseNatAux, digitVal_digitChar (n % 10) (Nat.mod_lt n (by omega)),
        List.length_append, List.length_cons, List.length_nil, Option.some.injEq]
      have hdm : 10 * (n / 10) + n % 10 = n := Nat.div_add_mod n 10
      set k := (natCharsAux fuel (n / 10)).length with hk
      have e1 : acc * 10 ^ (k + (0 + 1)) = acc * 10 ^ k * 10 := by ring
      rw [e1]
      omega

/-- Round trip of the decimal numeral encoding. -/
lemma parseNat_natChars (n : Nat) : parseNat (natChars n) = some n := by
  have h := parseNatAux_natCharsAux (n + 1) n 0 (Nat.lt_succ_self n)
  simp only [Nat.zero_mul, Nat.zero_add] at h
  rcases hh : natChars n with _ | ⟨c, cs⟩
  · exact absurd hh (natChars_ne_nil n)
  · unfold natChars at hh
    rw [hh] at h
    exact h

/-- Escaping one character never yields the empty list. -/
lemma escChar_ne_nil (d c : Char) : escChar d c ≠ [] := by
  unfold escChar
  split
  · simp
  · split
    · simp
    · simp

/-- The delimiter never occurs in an escaped section (for the delimiters in
use, which are none of the escape characters). -/
lemma not_mem_esc (d : Char) (hd1 : d ≠ '\\') (hd2 : d ≠ 'd') (hd3 : d ≠ 'b') :
    ∀ s, d ∉ esc d s := by
  intro s
  induction s with
  | nil => simp [esc]
  | cons c cs ih =>
    simp only [esc, List.mem_append]
    rintro (h | h)
    · unfold escChar at h
      split at h
      · simp at h
        rcases h with h | h
        · exact hd1 h
        · exact hd2 h
      · split at h
        · simp at h
          rcases h with h | h
          · exact hd1 h
          · exact hd3 h
        · rename_i hcd _
          simp at h
          exact hcd (h ▸ rfl)
    · exact ih h

/-- Decoding inverts escaping. -/
lemma unesc_esc (d : Char) : ∀ s, unesc d (esc d s) = some s := by
  intro s
  induction s with
  | nil => rfl
  | cons c cs ih =>
    show unesc d (escChar d c ++ esc d cs) = some (c :: cs)
    unfold escChar
    split
    · rename_i hcd
      show unesc d ('\\' :: 'd' :: esc d cs) = some (c :: cs)
      simp [unesc, ih, hcd]
    · split
      · rename_i hcb
        show unesc d ('\\' :: 'b' :: esc d cs) = some (c :: cs)
        simp [unesc, ih, hcb]
      · rename_i hcd hcb
        show unesc d (c :: esc d cs) = some (c :: cs)
        rw [unesc.eq_def]
        simp [hcd, hcb, ih]

/-- Escaping is injective. -/
lemma esc_inj (d : Char) (s t : List Char) (h : esc d s = esc d t) : s = t := by
  have h1 := unesc_esc d s
  rw [h, unesc_esc d t] at h1
  injection h1 with h2
  exact h2.symm

/-- Splitting never yields the empty list of parts. -/
lemma splitOnC_ne_nil (d : Char) : ∀ t, splitOnC d t ≠ [] := by
  intro t
  induction t with
  | nil => simp [splitOnC]
  | cons c cs ih =>
    simp only [splitOnC]
    split
    · simp
    · split
      · simp
      · simp

/-- Joining inverts splitting. -/
lemma joinOn_splitOnC (d : Char) : ∀ t, joinOn d (splitOnC d t) = t := by
  intro t
  induction t with
  | nil => rfl
  | cons c cs ih =>
    simp only [splitOnC]
    split
    · rename_i hcd
      rcases hh : splitOnC d cs with _ | ⟨p, ps⟩
      · exact absurd hh (splitOnC_ne_nil d cs)
      · show [] ++ d :: joinOn d (p :: ps) = c :: cs
        rw [List.nil_append, ← hh, ih, hcd]
    · rename_i hcd
      rcases hh : splitOnC d cs with _ | ⟨p, ps⟩
      · exact absurd hh (splitOnC_ne_nil d cs)
      · cases ps with
        | nil =>
          show c :: joinOn d [p] = c :: cs
          rw [← hh, ih]
        | cons q qs =>
          show (c :: p) ++ d :: joinOn d (q :: qs) = c :: cs
          rw [List.cons_append]
          show c :: joinOn d (p :: q :: qs) = c :: cs
          rw [← hh, ih]

/-- Every part produced by splitting is free of the delimiter. -/
lemma mem_splitOnC (d : Char) : ∀ t x, x ∈ splitOnC d t → d ∉ x := by
  intro t
  induction t with
  | nil =>
    intro x hx
    simp [splitOnC] at hx
    simp [hx]
  | cons c cs ih =>
    intro x hx
    simp only [splitOnC] at hx
    split at hx
    · rcases List.mem_cons.mp hx with h | h
      · simp [h]
      · exact ih x h
    · rename_i hcd
      rcases hh : splitOnC d cs with _ | ⟨p, ps⟩
      · exact absurd hh (splitOnC_ne_nil d cs)
      · rw [hh] at hx
        rcases List.mem_cons.mp hx with h | h
        · subst h
          intro hmem
          rcases List.mem_cons.mp hmem with h1 | h1
          · exact hcd h1.symm
          · exact ih p (by rw [hh]; exact List.mem_cons_self p ps) h1
        · exact ih x (by rw [hh]; exact List.mem_cons_of_mem p h) 

/-- Splitting a list that starts with a delimiter-free section. -/
lemma splitOnC_append (d : Char) (a : List Char) (r : List Char) (ha : d ∉ a) :
    splitOnC d (a ++ d :: r) = a :: splitOnC d r := by
  induction a with
  | nil =>
    simp [splitOnC]
  | cons x a2 ih =>
    have hx : ¬x = d := fun h => ha (h ▸ List.mem_cons_self x a2)
    have ha2 : d ∉ a2 := fun h => ha (List.mem_cons_of_mem x h)
    show splitOnC d (x :: (a2 ++ d :: r)) = (x :: a2) :: splitOnC d r
    simp only [splitOnC, if_neg hx]
    rw [ih ha2]

/-- Splitting a delimiter-free list. -/
lemma splitOnC_no_delim (d : Char) (a : List Char) (ha : d ∉ a) :
    splitOnC d a = [a] := by
  induction a with
  | nil => rfl
  | cons x a2 ih =>
    have hx : ¬x = d := fun h => ha (h ▸ List.mem_cons_self x a2)
    have ha2 : d ∉ a2 := fun h => ha (List.mem_cons_of_mem x h)
    simp only [splitOnC, if_neg hx]
    rw [ih ha2]

/-- Counting distributes over appending. -/
lemma countD_append (d : Char) (a b : List Char) :
    countD d (a ++ b) = countD d a + countD d b := by
  induction a with
  | nil => simp [countD]
  | cons c cs ih =>
    show (if c = d then 1 else 0) + countD d (cs ++ b)
      = ((if c = d then 1 else 0) + countD d cs) + countD d b
    rw [ih, Nat.add_assoc]

/-- A list avoiding a character has count zero for it. -/
lemma countD_eq_zero (d : Char) (a : List Char) (ha : d ∉ a) : countD d a = 0 := by
  induction a with
  | nil => rfl
  | cons c cs ih =>
    have hc : ¬c = d := fun h => ha (h ▸ List.mem_cons_self c cs)
    have hcs : d ∉ cs := fun h => ha (List.mem_cons_of_mem c h)
    simp only [countD, if_neg hc, ih hcs]

/-- A well-formed three-section token contains exactly two delimiters. -/
lemma countD_shape (d : Char) (a b c : List Char) (ha : d ∉ a) (hb : d ∉ b) (hc : d ∉ c) :
    countD d (a ++ (d :: (b ++ (d :: c)))) = 2 := by
  rw [countD_append, countD_eq_zero d a ha]
  show 0 + ((if d = d then 1 else 0) + countD d (b ++ d :: c)) = 2
  rw [if_pos rfl, countD_append, countD_eq_zero d b hb]
  show 0 + (1 + (0 + ((if d = d then 1 else 0) + countD d c))) = 2
  rw [if_pos rfl, countD_eq_zero d c hc]

/-- Escaped sections of the claims serialization are comma-free. -/
lemma comma_not_mem_esc (s : List Char) : ',' ∉ esc ',' s :=
  not_mem_esc ',' (by decide) (by decide) (by decide) s

/-- Escaped sections of the token are dot-free. -/
lemma dot_not_mem_esc (s : List Char) : '.' ∉ esc '.' s :=
  not_mem_esc '.' (by decide) (by decide) (by decide) s

/-- The constant header section is dot-free. -/
lemma dot_not_mem_headerEnc : '.' ∉ headerEnc := by decide

/-- Parsing inverts the claims serialization. -/
lemma parseClaims_serializeClaims (c : Claims) :
    parseClaims (serializeClaims c) = some c := by
  unfold parseClaims serializeClaims
  rw [splitOnC_append ',' _ _ (comma_not_mem_esc c.id.data),
    splitOnC_append ',' _ _ (comma_not_mem_esc c.email.data),
    splitOnC_append ',' _ _ (comma_not_mem_esc c.name.data),
    splitOnC_append ',' _ _ (comma_not_mem_natChars c.iat),
    splitOnC_no_delim ',' _ (comma_not_mem_natChars c.exp)]
  show (match unesc ',' (esc ',' c.id.data), unesc ',' (esc ',' c.email.data),
      unesc ',' (esc ',' c.name.data), parseNat (natChars c.iat), parseNat (natChars c.exp) with
    | some i', some e', some n', some ia', some ex' =>
      some (⟨⟨i'⟩, ⟨e'⟩, ⟨n'⟩, ia', ex'⟩ : Claims)
    | _, _, _, _, _ => none) = some c
  rw [unesc_esc, unesc_esc, unesc_esc, parseNat_natChars, parseNat_natChars]

/-- Splitting a signed token recovers its three sections. -/
lemma splitOnC_signedToken (K : String) (c : Claims) :
    splitOnC '.' (signedToken K c)
      = [headerEnc, esc '.' (serializeClaims c),
         esc '.' (mac K (headerEnc ++ ('.' :: esc '.' (serializeClaims c))))] := by
  unfold signedToken
  rw [splitOnC_append '.' _ _ dot_not_mem_headerEnc,
    splitOnC_append '.' _ _ (dot_not_mem_esc (serializeClaims c)),
    splitOnC_no_delim '.' _ (dot_not_mem_esc (mac K (headerEnc ++ ('.' :: esc '.' (serializeClaims c)))))]

/-- Verifying a token signed with the same secret checks only the expiry. -/
lemma jwtVerify_signedToken (K : String) (c : Claims) (now : Nat) :
    jwtVerify K (signedToken K c) now
      = if now < c.exp then Except.ok c else Except.error JwtError.expired := by
  unfold jwtVerify
  rw [splitOnC_signedToken]
  simp [unesc_esc, parseClaims_serializeClaims]

/-- Verifying right after signing: the round trip at the claims level. -/
lemma jwtVerify_jwtSign (K : String) (P : TokenPayload) (t0 now : Nat) :
    jwtVerify K (jwtSign K P t0) now
      = if now < t0 + 86400 then Except.ok ⟨P.id, P.email, P.name, t0, t0 + 86400⟩
        else Except.error JwtError.expired := by
  unfold jwtSign
  rw [jwtVerify_signedToken]

/-- Successful verification exposes the full well-formed token structure. -/
lemma jwtVerify_ok_inv (K : String) (tok : List Char) (now : Nat) (c : Claims)
    (h : jwtVerify K tok now = Except.ok c) :
    ∃ p cs, tok = headerEnc ++ ('.' :: (p ++ ('.' :: esc '.' (mac K (headerEnc ++ ('.' :: p))))))
      ∧ '.' ∉ p ∧ unesc '.' p = some cs ∧ parseClaims cs = some c ∧ now < c.exp := by
  unfold jwtVerify at h
  split at h
  · rename_i h1 p s hsp
    split at h
    · rename_i hh
      split at h
      · rename_i hsig
        split at h
        · rename_i cs hcs
          split at h
          · rename_i cl hcl
            split at h
            · rename_i hexp
              injection h with hc
              subst hc
              subst hh
              subst hsig
              refine ⟨p, cs, ?_, ?_, hcs, hcl, hexp⟩
              · have hjoin := joinOn_splitOnC '.' tok
                rw [hsp] at hjoin
                exact hjoin.symm
              · exact mem_splitOnC '.' tok p (by rw [hsp]; simp)
            · exact absurd h (by simp)
          · exact absurd h (by simp)
        · exact absurd h (by simp)
      · exact absurd h (by simp)
    · exact absurd h (by simp)
  · exact absurd h (by simp)

/-- The first delimiter-free section and the remainder of a delimited list
are uniquely determined. -/
lemma split_first (d : Char) : ∀ a a' r r' : List Char, d ∉ a → d ∉ a' →
    a ++ d :: r = a' ++ d :: r' → a = a' ∧ r = r' := by
  intro a
  induction a with
  | nil =>
    intro a' r r' _ ha' h
    cases a' with
    | nil =>
      simp only [List.nil_append] at h
      injection h with _ h2
      exact ⟨rfl, h2⟩
    | cons y a2 =>
      exfalso
      simp only [List.nil_append, List.cons_append] at h
      injection h with h1 _
      exact ha' (h1 ▸ List.mem_cons_self y a2)
  | cons x a2 ih =>
    intro a' r r' ha ha' h
    cases a' with
    | nil =>
      exfalso
      simp only [List.nil_append, List.cons_append] at h
      injection h with h1 _
      exact ha (h1 ▸ List.mem_cons_self x a2)
    | cons y a2' =>
      simp only [List.cons_append] at h
      injection h with h1 h2
      have ha2 : d ∉ a2 := fun hm => ha (List.mem_cons_of_mem x hm)
      have ha2' : d ∉ a2' := fun hm => ha' (List.mem_cons_of_mem y hm)
      obtain ⟨e1, e2⟩ := ih a2' r r' ha2 ha2' h2
      exact ⟨by rw [h1, e1], e2⟩

/-- Where a single altered position can sit relative to the leading
delimiter-free section: either inside it (with the remainders equal), or
past the delimiter (with the sections equal). -/
lemma altUnique (d : Char) : ∀ (u : List Char) (a a' r r' : List Char) (c c' : Char) (v : List Char),
    d ∉ a → d ∉ a' → c ≠ d → c' ≠ d →
    a ++ d :: r = u ++ c :: v → a' ++ d :: r' = u ++ c' :: v →
    (∃ w, a = u ++ c :: w ∧ a' = u ++ c' :: w ∧ r = r') ∨
    (a = a' ∧ ∃ u2, u = a ++ d :: u2 ∧ r = u2 ++ c :: v ∧ r' = u2 ++ c' :: v) := by
  intro u
  induction u with
  | nil =>
    intro a a' r r' c c' v ha ha' hc hc' h1 h2
    simp only [List.nil_append] at h1 h2
    cases a with
    | nil =>
      exfalso
      injection h1 with h1a _
      exact hc h1a.symm
    | cons x a2 =>
      cases a' with
      | nil =>
        exfalso
        injection h2 with h2a _
        exact hc' h2a.symm
      | cons y a2' =>
        simp only [List.cons_append] at h1 h2
        injection h1 with hx hv1
        injection h2 with hy hv2
        have ha2 : d ∉ a2 := fun hm => ha (List.mem_cons_of_mem x hm)
        have ha2' : d ∉ a2' := fun hm => ha' (List.mem_cons_of_mem y hm)
        obtain ⟨e1, e2⟩ := split_first d a2 a2' r r' ha2 ha2' (hv1.trans hv2.symm)
        left
        refine ⟨a2, ?_, ?_, e2⟩
        · rw [hx]
          rfl
        · rw [hy, e1]
          rfl
  | cons z u' ih =>
    intro a a' r r' c c' v ha ha' hc hc' h1 h2
    cases a with
    | nil =>
      simp only [List.nil_append, List.cons_append] at h1
      injection h1 with hz hr
      cases a' with
      | cons y a2' =>
        exfalso
        simp only [List.cons_append] at h2
        injection h2 with hy _
        exact ha' ((hy.trans hz.symm) ▸ List.mem_cons_self y a2')
      | nil =>
        simp only [List.nil_append] at h2
        injection h2 with hz' hr'
        right
        refine ⟨rfl, u', ?_, hr, hr'⟩
        rw [List.nil_append, ← hz]
    | cons x a2 =>
      cases a' with
      | nil =>
        exfalso
        simp only [List.nil_append, List.cons_append] at h1 h2
        injection h2 with hz' _
        injection h1 with hx _
        exact ha ((hx.trans hz'.symm) ▸ List.mem_cons_self x a2)
      | cons y a2' =>
        simp only [List.cons_append] at h1 h2
        injection h1 with hx h1'
        injection h2 with hy h2'
        have ha2 : d ∉ a2 := fun hm => ha (List.mem_cons_of_mem x hm)
        have ha2' : d ∉ a2' := fun hm => ha' (List.mem_cons_of_mem y hm)
        rcases ih a2 a2' r r' c c' v ha2 ha2' hc hc' h1' h2' with
          ⟨w, hw1, hw2, hw3⟩ | ⟨heq, u2, hu1, hu2, hu3⟩
        · left
          refine ⟨w, ?_, ?_, hw3⟩
          · rw [hx, hw1]
            rfl
          · rw [hy, hw2]
            rfl
        · right
          refine ⟨by rw [hx, hy, heq], u2, ?_, hu2, hu3⟩
          rw [hx, hu1]
          rfl

/-- Strings with equal character data are equal. -/
lemma stringDataInj (s t : String) (h : s.data = t.data) : s = t := by
  cases s
  cases t
  exact congrArg String.mk h

/-- The idealized signature distinguishes secrets on a fixed message. -/
lemma mac_inj_secret (s1 s2 : String) (m : List Char) (h : mac s1 m = mac s2 m) : s1 = s2 := by
  unfold mac at h
  exact stringDataInj s1 s2 (List.append_cancel_right h)

/-- The idealized signature is injective in the message for a fixed secret. -/
lemma mac_inj_msg (K : String) (m1 m2 : List Char) (h : mac K m1 = mac K m2) : m1 = m2 := by
  unfold mac at h
  exact List.append_cancel_left h

/-- Verification under a different secret rejects the signature. -/
lemma jwtVerify_wrong_secret (s1 s2 : String) (c : Claims) (now : Nat) (hne : s1 ≠ s2) :
    jwtVerify s2 (signedToken s1 c) now = Except.error JwtError.badSignature := by
  unfold jwtVerify
  rw [splitOnC_signedToken]
  have hs : esc '.' (mac s1 (headerEnc ++ ('.' :: esc '.' (serializeClaims c))))
      ≠ esc '.' (mac s2 (headerEnc ++ ('.' :: esc '.' (serializeClaims c)))) := by
    intro h
    exact hne (mac_inj_secret s1 s2 _ (esc_inj '.' _ _ h))
  show (if headerEnc = headerEnc then
      if esc '.' (mac s1 (headerEnc ++ ('.' :: esc '.' (serializeClaims c))))
          = esc '.' (mac s2 (headerEnc ++ ('.' :: esc '.' (serializeClaims c)))) then
        (match unesc '.' (esc '.' (serializeClaims c)) with
          | some cs =>
            match parseClaims cs with
            | some cl => if now < cl.exp then Except.ok cl else Except.error JwtError.expired
            | none => Except.error JwtError.malformed
          | none => Except.error JwtError.malformed)
      else Except.error JwtError.badSignature
    else Except.error JwtError.badSignature) = Except.error JwtError.badSignature
  rw [if_pos rfl, if_neg hs]

/-- Lists differing at one position are different. -/
lemma alter_ne (u v : List Char) (c c' : Char) (hne : c ≠ c') :
    u ++ c :: v ≠ u ++ c' :: v := by
  intro h
  have h1 := List.append_cancel_left h
  injection h1 with h2 _
  exact hne h2

/-- Altering any single character of a signed token makes verification fail:
the altered string is never accepted, whatever the current time. -/
lemma jwtVerify_altered (K : String) (cl : Claims) (u v : List Char) (c c' : Char) (now : Nat)
    (ht : signedToken K cl = u ++ c :: v) (hne : c ≠ c') :
    ∀ r, jwtVerify K (u ++ c' :: v) now ≠ Except.ok r := by
  intro r h
  obtain ⟨p', cs', htok', hp'free, _, _, _⟩ := jwtVerify_ok_inv K _ now r h
  have hP0f : ('.' : Char) ∉ esc '.' (serializeClaims cl) := dot_not_mem_esc _
  have hS0f : ('.' : Char) ∉ esc '.' (mac K (headerEnc ++ ('.' :: esc '.' (serializeClaims cl)))) :=
    dot_not_mem_esc _
  have hS'f : ('.' : Char) ∉ esc '.' (mac K (headerEnc ++ ('.' :: p'))) := dot_not_mem_esc _
  have ht0 : headerEnc ++ ('.' :: (esc '.' (serializeClaims cl)
      ++ ('.' :: esc '.' (mac K (headerEnc ++ ('.' :: esc '.' (serializeClaims cl)))))))
      = u ++ c :: v := ht
  have ht1 : headerEnc ++ ('.' :: (p' ++ ('.' :: esc '.' (mac K (headerEnc ++ ('.' :: p'))))))
      = u ++ c' :: v := htok'.symm
  by_cases hcd : c = '.'
  · have hc'd : c' ≠ '.' := fun hh => hne (hcd.trans hh.symm)
    have e1 : countD '.' (u ++ c :: v) = 2 := by
      rw [← ht0]
      exact countD_shape '.' _ _ _ dot_not_mem_headerEnc hP0f hS0f
    have e2 : countD '.' (u ++ c' :: v) = 2 := by
      rw [← ht1]
      exact countD_shape '.' _ _ _ dot_not_mem_headerEnc hp'free hS'f
    rw [countD_append] at e1 e2
    have e3 : countD '.' (c :: v) = 1 + countD '.' v := by
      show (if c = '.' then 1 else 0) + countD '.' v = 1 + countD '.' v
      rw [if_pos hcd]
    have e4 : countD '.' (c' :: v) = 0 + countD '.' v := by
      show (if c' = '.' then 1 else 0) + countD '.' v = 0 + countD '.' v
      rw [if_neg hc'd]
    omega
  · by_cases hc'd : c' = '.'
    · have e1 : countD '.' (u ++ c :: v) = 2 := by
        rw [← ht0]
        exact countD_shape '.' _ _ _ dot_not_mem_headerEnc hP0f hS0f
      have e2 : countD '.' (u ++ c' :: v) = 2 := by
        rw [← ht1]
        exact countD_shape '.' _ _ _ dot_not_mem_headerEnc hp'free hS'f
      rw [countD_append] at e1 e2
      have e3 : countD '.' (c :: v) = 0 + countD '.' v := by
        show (if c = '.' then 1 else 0) + countD '.' v = 0 + countD '.' v
        rw [if_neg hcd]
      have e4 : countD '.' (c' :: v) = 1 + countD '.' v := by
        show (if c' = '.' then 1 else 0) + countD '.' v = 1 + countD '.' v
        rw [if_pos hc'd]
      omega
    · rcases altUnique '.' u headerEnc headerEnc _ _ c c' v dot_not_mem_headerEnc
        dot_not_mem_headerEnc hcd hc'd ht0 ht1 with
        ⟨w, hw1, hw2, _⟩ | ⟨_, u2, _, hr, hr'⟩
      · exact alter_ne u w c c' hne (hw1.symm.trans hw2)
      · rcases altUnique '.' u2 (esc '.' (serializeClaims cl)) p' _ _ c c' v hP0f hp'free
          hcd hc'd hr hr' with
          ⟨w, hw1, hw2, hw3⟩ | ⟨hpp, u3, _, hs, hs'⟩
        · have hmsg : headerEnc ++ ('.' :: esc '.' (serializeClaims cl))
              = headerEnc ++ ('.' :: p') :=
            mac_inj_msg K _ _ (esc_inj '.' _ _ hw3)
          have hpp : esc '.' (serializeClaims cl) = p' := by
            simpa using List.append_cancel_left hmsg
          rw [hw1, hw2] at hpp
          exact alter_ne u2 w c c' hne hpp
        · have hSS : esc '.' (mac K (headerEnc ++ ('.' :: esc '.' (serializeClaims cl))))
              = esc '.' (mac K (headerEnc ++ ('.' :: p'))) := by
            rw [hpp]
          rw [hs, hs'] at hSS
          exact alter_ne u3 v c c' hne hSS

/-- Errors of the jwt layer surface as null from verifyToken (the catch). -/
lemma verifyToken_eq_none (env : Option String) (tok : List Char) (now : Nat)
    (h : ∀ r, jwtVerify (JWT_SECRET env) tok now ≠ Except.ok r) :
    verifyToken env tok now = none := by
  unfold verifyToken
  cases he : jwtVerify (JWT_SECRET env) tok now with
  | ok r => exact absurd he (h r)
  | error e => rfl

/-- Full behavior of verifyToken on a token generated in the same process. -/
lemma verifyToken_generateToken (env : Option String) (P : TokenPayload) (t0 now : Nat) :
    verifyToken env (generateToken env P t0) now
      = if now < t0 + 86400 then some P else none := by
  unfold verifyToken generateToken
  rw [jwtVerify_jwtSign]
  by_cases h : now < t0 + 86400
  · rw [if_pos h, if_pos h]
  · rw [if_neg h, if_neg h]

/-- C1: for every fully-populated TokenPayload P, verifying the token produced
by generateToken P with the same process-wide secret, at any current time less
than 24 hours after issuance, returns a payload equal to P. -/
theorem claim_C1_roundtrip (env : Option String) (P : TokenPayload) (t0 now : Nat)
    (hid : P.id ≠ "") (hemail : P.email ≠ "") (hname : P.name ≠ "")
    (hfresh : now < t0 + 86400) :
    verifyToken env (generateToken env P t0) now = some P := by
  rw [verifyToken_generateToken, if_pos hfresh]

/-- Witness for C1 at a concrete payload and time. -/
theorem claim_C1_roundtrip_witness :
    verifyToken none (generateToken none ⟨"a", "b", "c"⟩ 0) 3 = some ⟨"a", "b", "c"⟩ :=
  claim_C1_roundtrip none ⟨"a", "b", "c"⟩ 0 3 (by decide) (by decide) (by decide) (by decide)

/-- C2: the Authorization Gate takes the token to be the second segment of the
Authorization header after splitting on one space; an absent header or an
absent or empty segment gives 401 No token provided and the handler never
runs; a token failing verification gives 401 Invalid token and the handler
never runs; on success the decoded payload is attached and the pipeline
proceeds to the handler. -/
theorem claim_C2_gate (env : Option String) (now : Nat) (req : AuthRequest) :
    (∀ hdr, req.authorization = some hdr → extractToken req = (splitOnC ' ' hdr.data)[1]?) ∧
    (req.authorization = none →
      authMiddleware env now req = MiddlewareResult.reject 401 "No token provided") ∧
    (extractToken req = none →
      authMiddleware env now req = MiddlewareResult.reject 401 "No token provided") ∧
    (extractToken req = some [] →
      authMiddleware env now req = MiddlewareResult.reject 401 "No token provided") ∧
    (∀ tok, extractToken req = some tok → tok ≠ [] → verifyToken env tok now = none →
      authMiddleware env now req = MiddlewareResult.reject 401 "Invalid token") ∧
    (∀ tok p, extractToken req = some tok → tok ≠ [] → verifyToken env tok now = some p →
      authMiddleware env now req = MiddlewareResult.proceed p) := by
  refine ⟨?_, ?_, ?_, ?_, ?_, ?_⟩
  · intro hdr h
    unfold extractToken
    rw [h]
  · intro h
    unfold authMiddleware extractToken
    rw [h]
  · intro h
    unfold authMiddleware
    rw [h]
  · intro h
    unfold authMiddleware
    rw [h]
    rfl
  · intro tok h1 h2 h3
    unfold authMiddleware
    rw [h1]
    show (if tok = [] then MiddlewareResult.reject 401 "No token provided"
      else match verifyToken env tok now with
        | none => MiddlewareResult.reject 401 "Invalid token"
        | some payload => MiddlewareResult.proceed payload) = MiddlewareResult.reject 401 "Invalid token"
    rw [if_neg h2, h3]
  · intro tok p h1 h2 h3
    unfold authMiddleware
    rw [h1]
    show (if tok = [] then MiddlewareResult.reject 401 "No token provided"
      else match verifyToken env tok now with
        | none => MiddlewareResult.reject 401 "Invalid token"
        | some payload => MiddlewareResult.proceed payload) = MiddlewareResult.proceed p
    rw [if_neg h2, h3]

/-- Witness for C2 at a concrete request without an Authorization header. -/
theorem claim_C2_gate_witness :
    authMiddleware none 0 ⟨none⟩ = MiddlewareResult.reject 401 "No token provided" :=
  (claim_C2_gate none 0 ⟨none⟩).2.1 rfl

/-- C3: verifyToken is total - every outcome is either the full decoded
payload of a token whose recomputed signature matches exactly and whose
expiry has not passed, or the explicit invalid result null; every error of
the decoding layer is caught and surfaced as null, never a partial payload. -/
theorem claim_C3_total (env : Option String) (tok : List Char) (now : Nat) :
    (verifyToken env tok now = none ∨
      ∃ p cs c, tok = headerEnc
          ++ ('.' :: (p ++ ('.' :: esc '.' (mac (JWT_SECRET env) (headerEnc ++ ('.' :: p))))))
        ∧ unesc '.' p = some cs ∧ parseClaims cs = some c ∧ now < c.exp
        ∧ verifyToken env tok now = some ⟨c.id, c.email, c.name⟩) ∧
    (∀ e, jwtVerify (JWT_SECRET env) tok now = Except.error e → verifyToken env tok now = none) := by
  constructor
  · cases he : jwtVerify (JWT_SECRET env) tok now with
    | error e =>
      left
      unfold verifyToken
      rw [he]
    | ok c =>
      right
      obtain ⟨p, cs, h1, _, h3, h4, h5⟩ := jwtVerify_ok_inv _ _ _ _ he
      refine ⟨p, cs, c, h1, h3, h4, h5, ?_⟩
      unfold verifyToken
      rw [he]
  · intro e he
    unfold verifyToken
    rw [he]

/-- Witness for C3: a malformed token is rejected with null via the catch. -/
theorem claim_C3_total_witness : verifyToken none ['x'] 0 = none :=
  (claim_C3_total none ['x'] 0).2 JwtError.malformed rfl

/-- C4: a token issued at t0 verifies exactly while the current time is
strictly before t0 + 24h, and fails from t0 + 24h on. -/
theorem claim_C4_expiry (env : Option String) (P : TokenPayload) (t0 now : Nat) :
    (t0 ≤ now → now < t0 + 86400 → verifyToken env (generateToken env P t0) now = some P) ∧
    (t0 + 86400 ≤ now → verifyToken env (generateToken env P t0) now = none) := by
  constructor
  · intro _ h2
    rw [verifyToken_generateToken, if_pos h2]
  · intro h
    rw [verifyToken_generateToken, if_neg (by omega)]

/-- Witness for C4 on both sides of the expiry boundary. -/
theorem claim_C4_expiry_witness :
    verifyToken none (generateToken none ⟨"x", "y", "z"⟩ 5) 5 = some ⟨"x", "y", "z"⟩ ∧
    verifyToken none (generateToken none ⟨"x", "y", "z"⟩ 5) 86405 = none :=
  ⟨(claim_C4_expiry none ⟨"x", "y", "z"⟩ 5 5).1 (by decide) (by decide),
   (claim_C4_expiry none ⟨"x", "y", "z"⟩ 5 86405).2 (by decide)⟩

/-- C5 counterexample: with no secret configured the service starts with the
hardcoded default and produces tokens that verify under that public default -
it does not fail loudly and does sign with the weak default. -/
theorem claim_C5_counterexample :
    JWT_SECRET none = "your_jwt_secret_key" ∧
    generateToken none ⟨"a", "b", "c"⟩ 0 = jwtSign "your_jwt_secret_key" ⟨"a", "b", "c"⟩ 0 ∧
    verifyToken (some "your_jwt_secret_key") (generateToken none ⟨"a", "b", "c"⟩ 0) 0
      = some ⟨"a", "b", "c"⟩ := by
  refine ⟨rfl, rfl, ?_⟩
  have h : generateToken none ⟨"a", "b", "c"⟩ 0
      = generateToken (some "your_jwt_secret_key") ⟨"a", "b", "c"⟩ 0 := rfl
  rw [h, verifyToken_generateToken]
  rfl

/-- C5 amended: a missing or empty JWT_SECRET does not stop the service; the
Token Service silently falls back to the hardcoded default secret
your_jwt_secret_key for both generation and verification. -/
theorem claim_C5_amended (P : TokenPayload) (t0 : Nat) :
    JWT_SECRET none = "your_jwt_secret_key" ∧
    JWT_SECRET (some "") = "your_jwt_secret_key" ∧
    generateToken none P t0 = jwtSign "your_jwt_secret_key" P t0 ∧
    generateToken (some "") P t0 = jwtSign "your_jwt_secret_key" P t0 :=
  ⟨rfl, rfl, rfl, rfl⟩

/-- C6: a token generated under one signing secret fails verification under
any different signing secret. -/
theorem claim_C6_key_mismatch (s1 s2 : String) (P : TokenPayload) (t0 now : Nat) (hne : s1 ≠ s2) :
    jwtVerify s2 (jwtSign s1 P t0) now = Except.error JwtError.badSignature := by
  unfold jwtSign
  exact jwtVerify_wrong_secret s1 s2 _ now hne

/-- Witness for C6 with two concrete distinct secrets. -/
theorem claim_C6_key_mismatch_witness :
    jwtVerify "b" (jwtSign "a" ⟨"x", "y", "z"⟩ 0) 0 = Except.error JwtError.badSignature :=
  claim_C6_key_mismatch "a" "b" ⟨"x", "y", "z"⟩ 0 0 (by decide)

/-- C7: altering any single character of a generated token makes verifyToken
return the invalid result, at every verification time. -/
theorem claim_C7_tamper (env : Option String) (P : TokenPayload) (t0 now : Nat)
    (u : List Char) (c c' : Char) (v : List Char)
    (ht : generateToken env P t0 = u ++ c :: v) (hne : c ≠ c') :
    verifyToken env (u ++ c' :: v) now = none := by
  apply verifyToken_eq_none
  intro r
  exact jwtVerify_altered (JWT_SECRET env) ⟨P.id, P.email, P.name, t0, t0 + 86400⟩
    u v c c' now ht hne r

/-- Witness for C7: flipping the first character of a concrete token. -/
theorem claim_C7_tamper_witness :
    verifyToken none ([] ++ 'b' :: (generateToken none ⟨"a", "b", "c"⟩ 0).drop 1) 0 = none :=
  claim_C7_tamper none ⟨"a", "b", "c"⟩ 0 0 [] 'a' 'b'
    ((generateToken none ⟨"a", "b", "c"⟩ 0).drop 1) (by decide) (by decide)

/-- C8 counterexample: authentication failures do not share one uniform
message - a missing token, an invalid token and bad signin credentials get
three different bodies, and the first two reveal which check failed. -/
theorem claim_C8_counterexample :
    authMiddleware none 0 ⟨none⟩ = MiddlewareResult.reject 401 "No token provided" ∧
    authMiddleware none 0 ⟨some "Bearer x"⟩ = MiddlewareResult.reject 401 "Invalid token" ∧
    signin none 0 (fun _ _ => false) [] (some "a@x.com") (some "pw")
      = ApiResponse.err 401 "Invalid email or password" ∧
    "No token provided" ≠ "Invalid token" := by
  refine ⟨rfl, by decide, rfl, by decide⟩

/-- C8 amended: every authentication failure carries HTTP status 401, and the
two bad-credential cases of signin (unknown email, wrong password) return the
identical generic body, not revealing which field was wrong; token failures
are also 401 but use the distinct messages No token provided and
Invalid token. -/
theorem claim_C8_amended (env : Option String) (now : Nat) (compare : String → String → Bool)
    (store : List UserRecord) (email_id password : Option String) :
    (strFalsy email_id = false → strFalsy password = false →
      findUser store (email_id.getD "") = none →
      signin env now compare store email_id password
        = ApiResponse.err 401 "Invalid email or password") ∧
    (strFalsy email_id = false → strFalsy password = false →
      ∀ u, findUser store (email_id.getD "") = some u →
        compare (password.getD "") u.password_hash = false →
        signin env now compare store email_id password
          = ApiResponse.err 401 "Invalid email or password") ∧
    (∀ req s e, authMiddleware env now req = MiddlewareResult.reject s e → s = 401) := by
  refine ⟨?_, ?_, ?_⟩
  · intro h1 h2 h3
    simp [signin, h1, h2, h3]
  · intro h1 h2 u hu hcmp
    simp [signin, h1, h2, hu, hcmp]
  · intro req s e h
    unfold authMiddleware at h
    split at h
    · injection h with hs _
      exact hs.symm
    · split at h
      · injection h with hs _
        exact hs.symm
      · split at h
        · injection h with hs _
          exact hs.symm
        · exact absurd h (by simp)

/-- Witness for C8 amended: unknown email at a concrete store and request. -/
theorem claim_C8_amended_witness :
    signin none 0 (fun _ _ => false) [] (some "a@x.com") (some "pw")
      = ApiResponse.err 401 "Invalid email or password" :=
  (claim_C8_amended none 0 (fun _ _ => false) [] (some "a@x.com") (some "pw")).1 rfl rfl rfl

/-- C9: signup returns 400 with no record created when a field is missing,
409 with no record created when the email already exists, and only otherwise
proceeds to create the account (adding the record on a successful insert,
storing nothing on a failed one). -/
theorem claim_C9_signup_guards (env : Option String) (now : Nat) (hash : String → String)
    (newId createdAt : String) (insertOk : Bool) (store : List UserRecord)
    (username email_id password : Option String) :
    ((strFalsy username || strFalsy email_id || strFalsy password) = true →
      signup env now hash newId createdAt insertOk store username email_id password
        = (ApiResponse.err 400 "Missing required fields", store)) ∧
    ((strFalsy username || strFalsy email_id || strFalsy password) = false →
      ∀ u, findUser store (email_id.getD "") = some u →
        signup env now hash newId createdAt insertOk store username email_id password
          = (ApiResponse.err 409 "User already exists", store)) ∧
    ((strFalsy username || strFalsy email_id || strFalsy password) = false →
      findUser store (email_id.getD "") = none → insertOk = true →
      signup env now hash newId createdAt insertOk store username email_id password
        = (ApiResponse.ok 201 "User created successfully"
            (generateToken env ⟨newId, email_id.getD "", username.getD ""⟩ now)
            ⟨newId, email_id.getD "", username.getD ""⟩,
          ⟨newId, email_id.getD "", username.getD "", hash (password.getD ""), 0, createdAt⟩
            :: store)) ∧
    ((strFalsy username || strFalsy email_id || strFalsy password) = false →
      findUser store (email_id.getD "") = none → insertOk = false →
      signup env now hash newId createdAt insertOk store username email_id password
        = (ApiResponse.err 400 "Failed to store user data", store)) := by
  refine ⟨?_, ?_, ?_, ?_⟩
  · intro h
    simp [signup, h]
  · intro h u hu
    simp [signup, h, hu]
  · intro h hu hins
    simp [signup, h, hu, hins]
  · intro h hu hins
    simp [signup, h, hu, hins]

/-- Witness for C9: a signup request with a missing username is rejected. -/
theorem claim_C9_signup_guards_witness :
    signup none 0 (fun s => s) "id1" "t" true [] none (some "e") (some "p")
      = (ApiResponse.err 400 "Missing required fields", []) :=
  (claim_C9_signup_guards none 0 (fun s => s) "id1" "t" true [] none (some "e") (some "p")).1 rfl

/-- C10: with JWT_SECRET unset both generateToken and verifyToken silently
use the hardcoded constant your_jwt_secret_key, so a token generated by an
unconfigured process verifies in an unconfigured process while unexpired. -/
theorem claim_C10_default_fallback :
    JWT_SECRET none = "your_jwt_secret_key" ∧
    ∀ (P : TokenPayload) (t0 now : Nat), now < t0 + 86400 →
      verifyToken none (generateToken none P t0) now = some P := by
  refine ⟨rfl, fun P t0 now h => ?_⟩
  rw [verifyToken_generateToken, if_pos h]

/-- Witness for C10 at a concrete payload. -/
theorem claim_C10_default_fallback_witness :
    verifyToken none (generateToken none ⟨"u", "e", "n"⟩ 7) 7 = some ⟨"u", "e", "n"⟩ :=
  claim_C10_default_fallback.2 ⟨"u", "e", "n"⟩ 7 7 (by decide)
